import Mathlib

/-!
Shallow embedding of `src/main.py` of the Gifmaker repository: a FastAPI
service converting an uploaded photo into a background-removed transparent
GIF.  Pure Python helpers become Lean functions; the external libraries
(PIL decode/encode, rembg removal) become function fields of an `Env`
record supplied to the handler; raised exceptions become `Except` values;
file-system effects become an explicit event trace.
-/

namespace Gifmaker

/-! ## Path helpers

Models of Python `pathlib.PurePath.name`, `.suffix` and `.stem` for the
plain file names the service receives.  In pathlib, the suffix of a name
is the substring from the last dot, provided that dot is neither the
first nor the last character of the name; the stem is the name with that
suffix removed. -/

/-- Index of the last occurrence of a dot in a character list, if any. -/
def lastDotIdx (cs : List Char) : Option Nat :=
  match cs.reverse.findIdx? (fun c => c = '.') with
  | none => none
  | some j => some (cs.length - 1 - j)

/-- Model of `pathlib.PurePath(s).name`: the final path component. -/
def pathName (s : String) : String :=
  String.mk ((s.data.reverse.takeWhile (fun c => c ≠ '/')).reverse)

/-- Model of `pathlib.PurePath(s).suffix`. -/
def pathSuffix (s : String) : String :=
  let name := (pathName s).data
  match lastDotIdx name with
  | some i => if 0 < i ∧ i + 1 < name.length then String.mk (name.drop i) else ""
  | none => ""

/-- Model of `pathlib.PurePath(s).stem`: the name with its suffix removed. -/
def pathStem (s : String) : String :=
  let name := (pathName s).data
  match lastDotIdx name with
  | some i => if 0 < i ∧ i + 1 < name.length then String.mk (name.take i) else String.mk name
  | none => String.mk name

/-- Model of the glob pattern `*.gif` matching a file name: the name
ends with the `.gif` suffix. -/
def strEndsWith (s suff : String) : Bool :=
  suff.data.isSuffixOf s.data

/-- Model of Python `str.lower()` on extension strings (ASCII case
folding, applied characterwise). -/
def strToLower (s : String) : String :=
  String.mk (s.data.map Char.toLower)

/-! ## Constants of `src/main.py` -/

/-- Supported image formats, `src/main.py` line 26 (a Python set literal,
modelled as a list in its written order). -/
def SUPPORTED_FORMATS : List String := [".jpg", ".jpeg", ".png", ".bmp", ".tiff", ".webp"]

/-- Maximum upload size in bytes, `src/main.py` line 27. -/
def MAX_FILE_SIZE : Nat := 10 * 1024 * 1024

/-- Scratch directory `Path(tempfile.gettempdir()) / "gif_converter"`,
`src/main.py` line 22; the platform temp root is modelled as `/tmp`. -/
def TEMP_DIR : String := "/tmp/gif_converter"

/-! ## Request data and responses -/

/-- Model of the FastAPI `UploadFile`: a declared (possibly absent or
empty) filename, a declared (possibly absent, client-reported) size, and
the actual byte content obtained by `await file.read()`. -/
structure UploadFile where
  filename : Option String
  size : Option Nat
  content : List Nat

/-- Model of a raised `HTTPException(status_code, detail)`. -/
structure HTTPExc where
  status_code : Nat
  detail : String
deriving DecidableEq, Repr

/-- Detail string of the unsupported-format rejection, `src/main.py`
lines 49-52. -/
def unsupportedFormatMsg : String :=
  "Unsupported file format. Supported formats: " ++ String.intercalate ", " SUPPORTED_FORMATS

/-- Detail string of the oversized-upload rejection, `src/main.py`
lines 56-59 and 479-482. -/
def fileTooLargeMsg : String :=
  "File too large. Maximum size: " ++ toString (MAX_FILE_SIZE / (1024 * 1024)) ++ "MB"

/-- Embedding of `validate_image_file` (`src/main.py` lines 41-59).
Python truthiness: a missing or empty filename is falsy; the declared
size check fires only when the size attribute is present and truthy
(nonzero) and exceeds the limit. -/
def validate_image_file (file : UploadFile) : Except HTTPExc Unit :=
  match file.filename with
  | none => .error ⟨400, "No filename provided"⟩
  | some fn =>
    if fn = "" then .error ⟨400, "No filename provided"⟩
    else
      let file_ext := strToLower (pathSuffix fn)
      if ¬ SUPPORTED_FORMATS.contains file_ext then
        .error ⟨400, unsupportedFormatMsg⟩
      else
        match file.size with
        | none => .ok ()
        | some sz =>
          if sz ≠ 0 ∧ sz > MAX_FILE_SIZE then .error ⟨413, fileTooLargeMsg⟩
          else .ok ()

/-! ## External libraries and effects -/

/-- Model of a PIL in-memory image: only its color mode matters to the
service logic. -/
structure PILImage where
  mode : String
deriving DecidableEq, Repr

/-- Arguments of the `img.save(...)` call in `convert_to_gif`
(`src/main.py` lines 94-100). -/
structure GifSaveCall where
  path : String
  format : String
  transparency : Nat
  optimize : Bool
  save_all : Bool
deriving DecidableEq, Repr

/-- Environment of external collaborators: the process-wide rembg session
(`None` when model loading failed at startup, `src/main.py` lines 30-35),
`rembg.remove`, `PIL.Image.open` (decode) and `img.save` (GIF encode).
Each fallible library call returns `Except` with the exception text. -/
structure Env where
  rembg_session : Option Unit
  rembgRemove : List Nat → Except String (List Nat)
  imageOpen : List Nat → Except String PILImage
  imageSave : PILImage → GifSaveCall → Except String Unit

/-- Observable events of a request: invocations of the external decode
and removal functions, and file-system writes/deletes in the scratch
directory. -/
inductive Event where
  | removeInvoked
  | decodeInvoked
  | fsWrite (path : String)
  | fsDelete (path : String)
deriving DecidableEq, Repr

/-- Applying one file-system event to the set of scratch-directory files
(a write creates or overwrites, a delete removes). -/
def applyEvent (s : List String) : Event → List String
  | .fsWrite p => if p ∈ s then s else p :: s
  | .fsDelete p => s.filter (fun q => q ≠ p)
  | _ => s

/-- Applying a trace of events to the scratch-directory contents. -/
def applyEvents (s : List String) (evs : List Event) : List String :=
  evs.foldl applyEvent s

/-! ## Core conversion functions -/

/-- Embedding of `remove_background` (`src/main.py` lines 61-74).  The
`ConversionError` raised when the session is `None`, and any exception
out of `rembg.remove`, are both caught by the blanket `except` clause and
re-raised as `ConversionError("Failed to remove background: " + str(e))`.
The second component records whether `rembg.remove` was invoked. -/
def remove_background (env : Env) (image_data : List Nat) :
    Except String (List Nat) × List Event :=
  match env.rembg_session with
  | none =>
    (.error ("Failed to remove background: " ++ "Background removal service not available"), [])
  | some _ =>
    match env.rembgRemove image_data with
    | .ok output_data => (.ok output_data, [.removeInvoked])
    | .error e => (.error ("Failed to remove background: " ++ e), [.removeInvoked])

/-- Result of a successful `convert_to_gif`: the mode the decoder
produced, whether `img.convert("RGBA")` was applied, the mode actually
encoded, and the arguments of the `img.save` call.  The returned scratch
path is `saved.path`. -/
structure ConvertOutput where
  decodedMode : String
  wasConverted : Bool
  savedMode : String
  saved : GifSaveCall
deriving DecidableEq, Repr

/-- Embedding of `convert_to_gif` (`src/main.py` lines 76-110).  A
`ConversionError` out of `remove_background` is re-raised unchanged; any
other exception (decode failure of the background-removed bytes, or
encode failure) is wrapped as
`ConversionError("Failed to convert image: " + str(e))`. -/
def convert_to_gif (env : Env) (image_data : List Nat) (filename : String) :
    Except String ConvertOutput × List Event :=
  match remove_background env image_data with
  | (.error m, evs) => (.error m, evs)
  | (.ok bg_removed_data, evs) =>
    match env.imageOpen bg_removed_data with
    | .error e => (.error ("Failed to convert image: " ++ e), evs ++ [.decodeInvoked])
    | .ok img =>
      let imgFinal : PILImage := if img.mode ≠ "RGBA" then { mode := "RGBA" } else img
      let base_name := pathStem filename
      let output_filename := base_name ++ "_no_bg.gif"
      let output_path := TEMP_DIR ++ "/" ++ output_filename
      let call : GifSaveCall :=
        { path := output_path, format := "GIF", transparency := 0,
          optimize := true, save_all := true }
      match env.imageSave imgFinal call with
      | .error e => (.error ("Failed to convert image: " ++ e), evs ++ [.decodeInvoked])
      | .ok _ =>
        (.ok { decodedMode := img.mode, wasConverted := decide (img.mode ≠ "RGBA"),
               savedMode := imgFinal.mode, saved := call },
         evs ++ [.decodeInvoked, .fsWrite output_path])

/-- Model of the HTTP response of `POST /convert`: either the
`FileResponse(path, filename, media_type)` of `src/main.py` lines
499-503, or a JSON error with a status code and detail. -/
inductive ConvResponse where
  | fileResponse (path : String) (filename : String) (media_type : String)
  | errorResponse (status_code : Nat) (detail : String)
deriving DecidableEq, Repr

/-- Status code of a response (a successful `FileResponse` is 200). -/
def ConvResponse.status : ConvResponse → Nat
  | .fileResponse _ _ _ => 200
  | .errorResponse s _ => s

/-- Detail string of an error response (empty for a `FileResponse`). -/
def ConvResponse.detail : ConvResponse → String
  | .fileResponse _ _ _ => ""
  | .errorResponse _ d => d

/-- Embedding of the `POST /convert` handler `convert_photo_to_gif`
(`src/main.py` lines 467-520): validation, body read, actual-size check,
decode probe, conversion, response shaping.  `HTTPException`s propagate
with their status; a `ConversionError` becomes 422 with `str(e)` as the
detail; the handler's final `except Exception` (500, generic detail) is
unreachable from the modelled operations, which is why no branch below
produces it. -/
def convert_photo_to_gif (env : Env) (file : UploadFile) :
    ConvResponse × List Event :=
  match validate_image_file file with
  | .error e => (.errorResponse e.status_code e.detail, [])
  | .ok _ =>
    let file_content := file.content
    if file_content.length > MAX_FILE_SIZE then
      (.errorResponse 413 fileTooLargeMsg, [])
    else
      match env.imageOpen file_content with
      | .error _ => (.errorResponse 400 "Invalid image file", [.decodeInvoked])
      | .ok _ =>
        match convert_to_gif env file_content (file.filename.getD "") with
        | (.error m, evs) => (.errorResponse 422 m, .decodeInvoked :: evs)
        | (.ok out, evs) =>
          let base_name := pathStem (file.filename.getD "")
          let response_filename := base_name ++ "_no_bg.gif"
          (.fileResponse out.saved.path response_filename "image/gif", .decodeInvoked :: evs)

/-- Embedding of `startup_event` (`src/main.py` lines 522-531): every
file in the scratch directory matching the glob `*.gif` is unlinked; the
function returns the directory contents after the sweep. -/
def startup_event (files : List String) : List String :=
  files.filter (fun f => ¬ (strEndsWith f ".gif"))

/-- Modelled from the spec and the PIL documentation: the PIL color
modes that carry an alpha channel.  The source never inspects this set
(it compares the mode against the literal `'RGBA'` only); the set is
needed to state the spec's "lacks an alpha channel" condition. -/
def modeHasAlpha (m : String) : Bool :=
  ["RGBA", "LA", "PA", "RGBa", "La"].contains m

/-! ## Concrete instances used by witnesses and counterexamples -/

/-- Environment in which model load, removal, decode and encode all
succeed, with the decoder producing an RGBA bitmap. -/
def envOk : Env :=
  { rembg_session := some (), rembgRemove := fun _ => .ok [7],
    imageOpen := fun _ => .ok { mode := "RGBA" }, imageSave := fun _ _ => .ok () }

/-- Environment identical to `envOk` except the rembg session failed to
initialize at startup. -/
def envNoSession : Env :=
  { envOk with rembg_session := none }

/-- Environment whose decoder accepts the original upload bytes but
fails with exception text "boom" on the background-removed bytes. -/
def envBoom : Env :=
  { rembg_session := some (), rembgRemove := fun _ => .ok [9],
    imageOpen := fun bs => if bs = [9] then .error "boom" else .ok { mode := "RGBA" },
    imageSave := fun _ _ => .ok () }

/-- Environment whose decoder produces an LA-mode bitmap (grayscale with
alpha) from the background-removed bytes. -/
def envLA : Env :=
  { rembg_session := some (), rembgRemove := fun _ => .ok [9],
    imageOpen := fun _ => .ok { mode := "LA" }, imageSave := fun _ _ => .ok () }

/-- Environment whose decoder always fails. -/
def envBadDecode : Env :=
  { envOk with imageOpen := fun _ => .error "cannot identify image file" }

/-- A valid upload: uppercase extension, 2 MB declared size, 3 bytes of
content. -/
def fileOk : UploadFile :=
  { filename := some "photo.JPG", size := some 2000000, content := [1, 2, 3] }

/-- An upload with an unsupported extension and a small declared size. -/
def fileTxt : UploadFile :=
  { filename := some "a.txt", size := some 100, content := [] }

/-- An upload with an unsupported extension and a declared size over the
10 MiB limit. -/
def fileBigTxt : UploadFile :=
  { filename := some "big.txt", size := some (20 * 1024 * 1024), content := [] }

/-- An upload with a supported extension and a declared size over the
10 MiB limit. -/
def fileBigJpg : UploadFile :=
  { filename := some "big.jpg", size := some (20 * 1024 * 1024), content := [] }

/-- The `ConvertOutput` produced by a run of `convert_to_gif` in `envLA`
on the upload `a.jpg`: the decoder reports mode LA (which has an alpha
channel), yet the image is converted because its mode is not RGBA. -/
def outLA : ConvertOutput :=
  { decodedMode := "LA", wasConverted := true, savedMode := "RGBA",
    saved := { path := "/tmp/gif_converter/a_no_bg.gif", format := "GIF",
               transparency := 0, optimize := true, save_all := true } }

/-- The `ConvertOutput` produced by a run of `convert_to_gif` in `envOk`
on any upload whose stem is `a`. -/
def outA : ConvertOutput :=
  { decodedMode := "RGBA", wasConverted := false, savedMode := "RGBA",
    saved := { path := "/tmp/gif_converter/a_no_bg.gif", format := "GIF",
               transparency := 0, optimize := true, save_all := true } }

/-! ## Helper lemmas -/

/-- A validated upload has a present, nonempty filename. -/
theorem validate_ok_filename (file : UploadFile) (u : Unit)
    (h : validate_image_file file = .ok u) :
    ∃ fn, file.filename = some fn ∧ fn ≠ "" := by
  cases hf : file.filename with
  | none => simp [validate_image_file, hf] at h
  | some fn =>
    refine ⟨fn, rfl, ?_⟩
    intro hne
    subst hne
    simp [validate_image_file, hf] at h

/-- Sufficient conditions for `validate_image_file` to accept. -/
theorem validate_ok_of (file : UploadFile) (fn : String)
    (hfn : file.filename = some fn) (hne : fn ≠ "")
    (hext : SUPPORTED_FORMATS.contains (strToLower (pathSuffix fn)) = true)
    (hsz : ∀ sz, file.size = some sz → ¬(sz ≠ 0 ∧ sz > MAX_FILE_SIZE)) :
    validate_image_file file = .ok () := by
  unfold validate_image_file
  rw [hfn]
  dsimp only
  rw [if_neg hne]
  simp only [hext]
  rw [if_neg (by simp)]
  cases hs : file.size with
  | none => rfl
  | some sz => dsimp only; rw [if_neg (hsz sz hs)]

/-- An upload whose filename has an unsupported (lowercased) extension is
rejected with the unsupported-format error. -/
theorem validate_unsupported (file : UploadFile) (fn : String)
    (hfn : file.filename = some fn) (hne : fn ≠ "")
    (hext : SUPPORTED_FORMATS.contains (strToLower (pathSuffix fn)) = false) :
    validate_image_file file = .error ⟨400, unsupportedFormatMsg⟩ := by
  unfold validate_image_file
  rw [hfn]
  dsimp only
  rw [if_neg hne]
  simp only [hext]
  rw [if_pos (by simp)]

/-- Every event in a `remove_background` trace is the removal
invocation. -/
theorem remove_background_events (env : Env) (d : List Nat) (e : Event)
    (h : e ∈ (remove_background env d).2) : e = .removeInvoked := by
  unfold remove_background at h
  cases hs : env.rembg_session with
  | none => rw [hs] at h; simp at h
  | some u =>
    rw [hs] at h
    cases hr : env.rembgRemove d with
    | ok v => rw [hr] at h; simpa using h
    | error m => rw [hr] at h; simpa using h

/-- The trace of `convert_to_gif` extends the `remove_background` trace
with at most a decode invocation and the write of the output file. -/
theorem convert_to_gif_trace_cases (env : Env) (d : List Nat) (fn : String) :
    (convert_to_gif env d fn).2 = (remove_background env d).2
    ∨ (convert_to_gif env d fn).2 = (remove_background env d).2 ++ [.decodeInvoked]
    ∨ (convert_to_gif env d fn).2 =
        (remove_background env d).2
          ++ [.decodeInvoked, .fsWrite (TEMP_DIR ++ "/" ++ (pathStem fn ++ "_no_bg.gif"))] := by
  unfold convert_to_gif
  rcases hrb : remove_background env d with ⟨r, evs⟩
  cases r with
  | error m => exact Or.inl rfl
  | ok bg =>
    dsimp only
    cases ho : env.imageOpen bg with
    | error m => exact Or.inr (Or.inl rfl)
    | ok img =>
      dsimp only
      split
      · exact Or.inr (Or.inl rfl)
      · exact Or.inr (Or.inr rfl)

/-- Every event of a `convert_to_gif` trace is a removal invocation, a
decode invocation, or the write of the derived output path. -/
theorem convert_to_gif_events (env : Env) (d : List Nat) (fn : String) (e : Event)
    (h : e ∈ (convert_to_gif env d fn).2) :
    e = .removeInvoked ∨ e = .decodeInvoked
      ∨ e = .fsWrite (TEMP_DIR ++ "/" ++ (pathStem fn ++ "_no_bg.gif")) := by
  have hevs : ∀ a ∈ (remove_background env d).2, a = Event.removeInvoked :=
    fun a ha => remove_background_events env d a ha
  rcases convert_to_gif_trace_cases env d fn with hc | hc | hc <;> rw [hc] at h
  · exact Or.inl (hevs e h)
  · rcases List.mem_append.mp h with h1 | h1
    · exact Or.inl (hevs e h1)
    · simp only [List.mem_singleton] at h1
      exact Or.inr (Or.inl h1)
  · rcases List.mem_append.mp h with h1 | h1
    · exact Or.inl (hevs e h1)
    · simp only [List.mem_cons, List.mem_singleton] at h1
      rcases h1 with h1 | h1
      · exact Or.inr (Or.inl h1)
      · exact Or.inr (Or.inr (by simpa using h1))

/-- Characterization of a successful `convert_to_gif`: the GIF save call
uses the derived scratch path, GIF format, transparency index 0,
optimization and multi-frame saving; the mode actually encoded is RGBA;
conversion was applied exactly when the decoded mode was not RGBA; and
the trace ends with the decode invocation and the output write. -/
theorem convert_to_gif_ok_spec (env : Env) (d : List Nat) (fn : String) (out : ConvertOutput)
    (h : (convert_to_gif env d fn).1 = .ok out) :
    out.saved = { path := TEMP_DIR ++ "/" ++ (pathStem fn ++ "_no_bg.gif"), format := "GIF",
                  transparency := 0, optimize := true, save_all := true }
    ∧ out.savedMode = "RGBA"
    ∧ out.wasConverted = decide (out.decodedMode ≠ "RGBA")
    ∧ (convert_to_gif env d fn).2 =
        (remove_background env d).2 ++ [.decodeInvoked, .fsWrite out.saved.path] := by
  rcases hC : convert_to_gif env d fn with ⟨r1, tr⟩
  rw [hC] at h
  dsimp only at h ⊢
  rcases hrb : remove_background env d with ⟨r, evs⟩
  dsimp only
  unfold convert_to_gif at hC
  rw [hrb] at hC
  cases r with
  | error m =>
    dsimp only at hC
    cases hC
    simp at h
  | ok bg =>
    dsimp only at hC
    cases ho : env.imageOpen bg with
    | error m =>
      rw [ho] at hC
      dsimp only at hC
      cases hC
      simp at h
    | ok img =>
      rw [ho] at hC
      dsimp only at hC
      split at hC
      · cases hC
        simp at h
      · cases hC
        injection h with hout
        subst hout
        refine ⟨rfl, ?_, rfl, rfl⟩
        by_cases hm : img.mode = "RGBA"
        · simp [hm]
        · simp [hm]

/-- The handler result when validation rejects. -/
theorem convert_photo_validate_error (env : Env) (file : UploadFile) (e : HTTPExc)
    (hv : validate_image_file file = .error e) :
    convert_photo_to_gif env file = (.errorResponse e.status_code e.detail, []) := by
  unfold convert_photo_to_gif
  rw [hv]

/-- The handler result when the body read exceeds the size limit. -/
theorem convert_photo_actual_oversize (env : Env) (file : UploadFile)
    (hv : validate_image_file file = .ok ())
    (hlen : file.content.length > MAX_FILE_SIZE) :
    convert_photo_to_gif env file = (.errorResponse 413 fileTooLargeMsg, []) := by
  unfold convert_photo_to_gif
  rw [hv]
  dsimp only
  rw [if_pos hlen]

/-- The handler result when the decode probe fails. -/
theorem convert_photo_bad_probe (env : Env) (file : UploadFile) (m : String)
    (hv : validate_image_file file = .ok ())
    (hlen : ¬ file.content.length > MAX_FILE_SIZE)
    (hdec : env.imageOpen file.content = .error m) :
    convert_photo_to_gif env file = (.errorResponse 400 "Invalid image file", [.decodeInvoked]) := by
  unfold convert_photo_to_gif
  rw [hv]
  dsimp only
  rw [if_neg hlen, hdec]

/-- The handler result when conversion raises a `ConversionError`. -/
theorem convert_photo_conv_error (env : Env) (file : UploadFile)
    (img : PILImage) (m : String) (evs : List Event)
    (hv : validate_image_file file = .ok ())
    (hlen : ¬ file.content.length > MAX_FILE_SIZE)
    (hdec : env.imageOpen file.content = .ok img)
    (hconv : convert_to_gif env file.content (file.filename.getD "") = (.error m, evs)) :
    convert_photo_to_gif env file = (.errorResponse 422 m, .decodeInvoked :: evs) := by
  unfold convert_photo_to_gif
  rw [hv]
  dsimp only
  rw [if_neg hlen, hdec]
  dsimp only
  rw [hconv]

/-- The handler result on a successful conversion. -/
theorem convert_photo_conv_ok (env : Env) (file : UploadFile)
    (img : PILImage) (out : ConvertOutput) (evs : List Event)
    (hv : validate_image_file file = .ok ())
    (hlen : ¬ file.content.length > MAX_FILE_SIZE)
    (hdec : env.imageOpen file.content = .ok img)
    (hconv : convert_to_gif env file.content (file.filename.getD "") = (.ok out, evs)) :
    convert_photo_to_gif env file =
      (.fileResponse out.saved.path (pathStem (file.filename.getD "") ++ "_no_bg.gif") "image/gif",
       .decodeInvoked :: evs) := by
  unfold convert_photo_to_gif
  rw [hv]
  dsimp only
  rw [if_neg hlen, hdec]
  dsimp only
  rw [hconv]

/-- A success response comes from a validated upload and a successful
`convert_to_gif`, and carries the derived path, filename and GIF media
type. -/
theorem convert_photo_ok_inv (env : Env) (file : UploadFile) (p rfn mt : String)
    (h : (convert_photo_to_gif env file).1 = .fileResponse p rfn mt) :
    validate_image_file file = .ok ()
    ∧ ∃ out, (convert_to_gif env file.content (file.filename.getD "")).1 = .ok out
      ∧ p = out.saved.path
      ∧ rfn = pathStem (file.filename.getD "") ++ "_no_bg.gif"
      ∧ mt = "image/gif" := by
  unfold convert_photo_to_gif at h
  cases hv : validate_image_file file with
  | error e =>
    rw [hv] at h
    simp at h
  | ok u =>
    cases u
    rw [hv] at h
    dsimp only at h
    split at h
    · simp at h
    · cases hdec : env.imageOpen file.content with
      | error m =>
        rw [hdec] at h
        simp at h
      | ok img =>
        rw [hdec] at h
        dsimp only at h
        rcases hconv : convert_to_gif env file.content (file.filename.getD "") with ⟨r, evs⟩
        rw [hconv] at h
        cases r with
        | error m =>
          simp at h
        | ok out =>
          dsimp only at h
          injection h with h1 h2 h3
          exact ⟨rfl, out, rfl, h1.symm, h2.symm, h3.symm⟩

/-- The handler trace is empty (validation or declared-size rejection),
a lone decode probe (actual-size passed, probe failed), or the probe
followed by the conversion trace; in the latter case the body length is
within the limit. -/
theorem convert_photo_trace_cases (env : Env) (file : UploadFile) :
    (convert_photo_to_gif env file).2 = []
    ∨ (convert_photo_to_gif env file).2 = [.decodeInvoked]
    ∨ ((convert_photo_to_gif env file).2 =
        .decodeInvoked :: (convert_to_gif env file.content (file.filename.getD "")).2
       ∧ file.content.length ≤ MAX_FILE_SIZE) := by
  cases hv : validate_image_file file with
  | error e =>
    rw [convert_photo_validate_error env file e hv]
    exact Or.inl rfl
  | ok u =>
    cases u
    by_cases hlen : file.content.length > MAX_FILE_SIZE
    · rw [convert_photo_actual_oversize env file hv hlen]
      exact Or.inl rfl
    · cases hdec : env.imageOpen file.content with
      | error m =>
        rw [convert_photo_bad_probe env file m hv hlen hdec]
        exact Or.inr (Or.inl rfl)
      | ok img =>
        rcases hconv : convert_to_gif env file.content (file.filename.getD "") with ⟨r, evs⟩
        cases r with
        | error m =>
          rw [convert_photo_conv_error env file img m evs hv hlen hdec hconv]
          exact Or.inr (Or.inr ⟨rfl, Nat.le_of_not_lt hlen⟩)
        | ok out =>
          rw [convert_photo_conv_ok env file img out evs hv hlen hdec hconv]
          exact Or.inr (Or.inr ⟨rfl, Nat.le_of_not_lt hlen⟩)

/-- An event that is not a deletion preserves membership in the scratch
directory. -/
theorem applyEvent_preserves (s : List String) (e : Event) (f : String)
    (hf : f ∈ s) (hd : ∀ p, e ≠ .fsDelete p) : f ∈ applyEvent s e := by
  cases e with
  | fsWrite p =>
    show f ∈ if p ∈ s then s else p :: s
    split
    · exact hf
    · exact List.mem_cons_of_mem p hf
  | fsDelete p => exact absurd rfl (hd p)
  | removeInvoked => exact hf
  | decodeInvoked => exact hf

/-- A trace without deletions preserves membership in the scratch
directory. -/
theorem applyEvents_preserves (evs : List Event) (s : List String) (f : String)
    (hf : f ∈ s) (hd : ∀ p, Event.fsDelete p ∉ evs) : f ∈ applyEvents s evs := by
  induction evs generalizing s with
  | nil => exact hf
  | cons e rest ih =>
    have he : ∀ p, e ≠ .fsDelete p := by
      intro p hp
      exact hd p (by rw [hp]; exact List.mem_cons_self _ _)
    have hrest : ∀ p, Event.fsDelete p ∉ rest := by
      intro p hp
      exact hd p (List.mem_cons_of_mem e hp)
    exact ih (applyEvent s e) (applyEvent_preserves s e f hf he) hrest

/-- After a trace without deletions that contains a write of `p`, the
file `p` is present in the scratch directory. -/
theorem applyEvents_write_mem (evs : List Event) (s : List String) (p : String)
    (hw : Event.fsWrite p ∈ evs) (hd : ∀ q, Event.fsDelete q ∉ evs) :
    p ∈ applyEvents s evs := by
  induction evs generalizing s with
  | nil => simp at hw
  | cons e rest ih =>
    have hrest : ∀ q, Event.fsDelete q ∉ rest := by
      intro q hq
      exact hd q (List.mem_cons_of_mem e hq)
    rcases List.mem_cons.mp hw with hw1 | hw1
    · subst hw1
      have hp : p ∈ applyEvent s (Event.fsWrite p) := by
        show p ∈ if p ∈ s then s else p :: s
        split
        · assumption
        · exact List.mem_cons_self _ _
      exact applyEvents_preserves rest (applyEvent s (.fsWrite p)) p hp hrest
    · exact ih (applyEvent s e) hw1 hrest

/-- An upload with a good filename, a supported extension, and a truthy
declared size over the limit is rejected with 413. -/
theorem validate_declared_oversize (file : UploadFile) (fn : String) (sz : Nat)
    (hfn : file.filename = some fn) (hne : fn ≠ "")
    (hext : SUPPORTED_FORMATS.contains (strToLower (pathSuffix fn)) = true)
    (hs : file.size = some sz) (hgt : sz > MAX_FILE_SIZE) :
    validate_image_file file = .error ⟨413, fileTooLargeMsg⟩ := by
  unfold validate_image_file
  rw [hfn]
  dsimp only
  rw [if_neg hne]
  simp only [hext]
  rw [if_neg (by simp)]
  rw [hs]
  dsimp only
  rw [if_pos ⟨fun h0 => absurd hgt (by rw [h0]; decide), hgt⟩]

/-- With a good filename and supported extension, validation either
accepts or rejects with 413. -/
theorem validate_cases (file : UploadFile) (fn : String)
    (hfn : file.filename = some fn) (hne : fn ≠ "")
    (hext : SUPPORTED_FORMATS.contains (strToLower (pathSuffix fn)) = true) :
    validate_image_file file = .ok ()
    ∨ validate_image_file file = .error ⟨413, fileTooLargeMsg⟩ := by
  cases hs : file.size with
  | none =>
    exact Or.inl (validate_ok_of file fn hfn hne hext
      (fun sz hsz => by rw [hs] at hsz; exact Option.noConfusion hsz))
  | some sz =>
    by_cases hgt : sz > MAX_FILE_SIZE
    · exact Or.inr (validate_declared_oversize file fn sz hfn hne hext hs hgt)
    · refine Or.inl (validate_ok_of file fn hfn hne hext ?_)
      intro sz2 hsz2
      rw [hs] at hsz2
      injection hsz2 with hsz2
      intro hcon
      exact hgt (hsz2 ▸ hcon.2)

/-- When `remove_background` succeeded, a `ConversionError` out of
`convert_to_gif` carries the decode/encode wrapper prefix with the
underlying exception text appended. -/
theorem convert_error_after_remove_ok (env : Env) (d : List Nat) (fn : String)
    (bg : List Nat) (m : String) (evs : List Event)
    (hbg : (remove_background env d).1 = .ok bg)
    (hconv : convert_to_gif env d fn = (.error m, evs)) :
    ∃ e, m = "Failed to convert image: " ++ e := by
  unfold convert_to_gif at hconv
  rcases hrb : remove_background env d with ⟨r, evs0⟩
  rw [hrb] at hconv hbg
  dsimp only at hbg hconv
  subst hbg
  dsimp only at hconv
  cases ho : env.imageOpen bg with
  | error e =>
    rw [ho] at hconv
    dsimp only at hconv
    injection hconv with hc1 hc2
    injection hc1 with hm
    exact ⟨e, hm.symm⟩
  | ok img =>
    rw [ho] at hconv
    dsimp only at hconv
    split at hconv
    · rename_i e heq
      injection hconv with hc1 hc2
      injection hc1 with hm
      exact ⟨e, hm.symm⟩
    · injection hconv with hc1 hc2
      exact Except.noConfusion hc1

/-- A success response implies the output write is in the handler
trace. -/
theorem convert_photo_ok_trace (env : Env) (file : UploadFile) (p rfn mt : String)
    (h : (convert_photo_to_gif env file).1 = .fileResponse p rfn mt) :
    Event.fsWrite p ∈ (convert_photo_to_gif env file).2 := by
  rcases hH : convert_photo_to_gif env file with ⟨resp, tr⟩
  rw [hH] at h
  dsimp only at h ⊢
  unfold convert_photo_to_gif at hH
  cases hv : validate_image_file file with
  | error e =>
    rw [hv] at hH
    dsimp only at hH
    cases hH
    simp at h
  | ok u =>
    cases u
    rw [hv] at hH
    dsimp only at hH
    split at hH
    · cases hH
      simp at h
    · cases hdec : env.imageOpen file.content with
      | error m =>
        rw [hdec] at hH
        dsimp only at hH
        cases hH
        simp at h
      | ok img =>
        rw [hdec] at hH
        dsimp only at hH
        rcases hconv : convert_to_gif env file.content (file.filename.getD "") with ⟨r, evs⟩
        rw [hconv] at hH
        cases r with
        | error m =>
          dsimp only at hH
          cases hH
          simp at h
        | ok out =>
          dsimp only at hH
          cases hH
          injection h with h1 h2 h3
          subst h1
          obtain ⟨hsaved, hmode, hwc, htr⟩ :=
            convert_to_gif_ok_spec env file.content (file.filename.getD "") out
              (by rw [hconv])
          rw [hconv] at htr
          dsimp only at htr
          rw [htr]
          simp

/-! ## Claims -/

/-- C1, counterexample: in `envBoom` the decode of the background-removed
bytes fails with exception text "boom"; the handler responds 422 — not
500 — and the response detail is the wrapper prefix with the exception
text "boom" appended, so the underlying exception text is exposed. -/
theorem C1_counterexample :
    (convert_photo_to_gif envBoom fileOk).1 =
      .errorResponse 422 ("Failed to convert image: " ++ "boom")
    ∧ ((convert_photo_to_gif envBoom fileOk).1).status ≠ 500 := by
  exact ⟨rfl, by decide⟩

/-- C1, amended: a failure in the decode/encode phase (background removal
itself succeeded) makes `POST /convert` respond 422 — never 500 — with
detail `"Failed to convert image: " ++ e` where `e` is the underlying
exception text, which is therefore included in the response body. -/
theorem C1_conversion_error_status (env : Env) (file : UploadFile)
    (img : PILImage) (bg : List Nat) (m : String) (evs : List Event)
    (hv : validate_image_file file = .ok ())
    (hlen : ¬ file.content.length > MAX_FILE_SIZE)
    (hdec : env.imageOpen file.content = .ok img)
    (hbg : (remove_background env file.content).1 = .ok bg)
    (hconv : convert_to_gif env file.content (file.filename.getD "") = (.error m, evs)) :
    (convert_photo_to_gif env file).1 = .errorResponse 422 m
    ∧ ((convert_photo_to_gif env file).1).status ≠ 500
    ∧ ∃ e, m = "Failed to convert image: " ++ e := by
  have hmain := convert_photo_conv_error env file img m evs hv hlen hdec hconv
  refine ⟨by rw [hmain], by rw [hmain]; simp [ConvResponse.status], ?_⟩
  exact convert_error_after_remove_ok env file.content (file.filename.getD "") bg m evs hbg hconv

/-- C1, witness for the amended theorem at the concrete `envBoom` run. -/
theorem C1_witness :
    (convert_photo_to_gif envBoom fileOk).1 =
      .errorResponse 422 "Failed to convert image: boom"
    ∧ ((convert_photo_to_gif envBoom fileOk).1).status ≠ 500
    ∧ ∃ e, "Failed to convert image: boom" = "Failed to convert image: " ++ e :=
  C1_conversion_error_status envBoom fileOk { mode := "RGBA" } [9]
    "Failed to convert image: boom" [.removeInvoked, .decodeInvoked]
    rfl (by decide) rfl rfl rfl

/-- C2, counterexample: with the removal session absent, an upload with
an unsupported extension is rejected 400 by validation, not 422, so the
claim's "regardless of input validity" fails. -/
theorem C2_counterexample :
    ((convert_photo_to_gif envNoSession fileTxt).1).status = 400
    ∧ ((convert_photo_to_gif envNoSession fileTxt).1).status ≠ 422 := by
  exact ⟨rfl, by decide⟩

/-- C2, amended: with the removal session absent, every upload that
passes the filename, extension, size and decode-probe checks receives
422 with a message indicating the removal service is unavailable;
uploads failing those checks receive their validation error instead. -/
theorem C2_no_session (env : Env) (file : UploadFile) (img : PILImage)
    (hsess : env.rembg_session = none)
    (hv : validate_image_file file = .ok ())
    (hlen : ¬ file.content.length > MAX_FILE_SIZE)
    (hdec : env.imageOpen file.content = .ok img) :
    (convert_photo_to_gif env file).1 =
      .errorResponse 422
        ("Failed to remove background: " ++ "Background removal service not available") := by
  have hrb : remove_background env file.content =
      (.error ("Failed to remove background: " ++ "Background removal service not available"),
       []) := by
    unfold remove_background
    rw [hsess]
  have hconv : convert_to_gif env file.content (file.filename.getD "") =
      (.error ("Failed to remove background: " ++ "Background removal service not available"),
       []) := by
    unfold convert_to_gif
    rw [hrb]
  rw [convert_photo_conv_error env file img _ [] hv hlen hdec hconv]

/-- C2, witness for the amended theorem: a fully valid upload in the
session-less environment gets the 422 unavailability response. -/
theorem C2_witness :
    (convert_photo_to_gif envNoSession fileOk).1 =
      .errorResponse 422 "Failed to remove background: Background removal service not available" :=
  C2_no_session envNoSession fileOk { mode := "RGBA" } rfl rfl (by decide) rfl

/-- C3, counterexample: an upload whose declared size exceeds 10 MiB but
whose extension is unsupported is rejected 400 by the earlier extension
check, not 413, so the claim's unconditional quantifier fails. -/
theorem C3_counterexample :
    ((convert_photo_to_gif envOk fileBigTxt).1).status = 400
    ∧ ((convert_photo_to_gif envOk fileBigTxt).1).status ≠ 413 := by
  exact ⟨rfl, by decide⟩

/-- C3, amended: for an upload with a present filename and supported
extension, a declared or actual byte length over 10 MiB yields 413 with
the size-limit message and no image decode is ever attempted; moreover
the declared-size rejection is decided before the body is read: it is
the same whatever the body content is. -/
theorem C3_oversize_413 (env : Env) (file : UploadFile) (fn : String)
    (hfn : file.filename = some fn) (hne : fn ≠ "")
    (hext : SUPPORTED_FORMATS.contains (strToLower (pathSuffix fn)) = true)
    (hover : (∃ sz, file.size = some sz ∧ sz > MAX_FILE_SIZE)
             ∨ file.content.length > MAX_FILE_SIZE) :
    (convert_photo_to_gif env file).1 = .errorResponse 413 fileTooLargeMsg
    ∧ Event.decodeInvoked ∉ (convert_photo_to_gif env file).2
    ∧ (∀ sz, file.size = some sz → sz > MAX_FILE_SIZE →
        ∀ c : List Nat,
          (convert_photo_to_gif env { file with content := c }).1 =
            .errorResponse 413 fileTooLargeMsg) := by
  have hthird : ∀ sz, file.size = some sz → sz > MAX_FILE_SIZE →
      ∀ c : List Nat,
        (convert_photo_to_gif env { file with content := c }).1 =
          .errorResponse 413 fileTooLargeMsg := by
    intro sz hs hgt c
    have hval := validate_declared_oversize { file with content := c } fn sz hfn hne hext hs hgt
    rw [convert_photo_validate_error env { file with content := c } _ hval]
  have hmain : convert_photo_to_gif env file = (.errorResponse 413 fileTooLargeMsg, []) := by
    rcases hover with ⟨sz, hs, hgt⟩ | hlen
    · exact convert_photo_validate_error env file _
        (validate_declared_oversize file fn sz hfn hne hext hs hgt)
    · rcases validate_cases file fn hfn hne hext with hv | hv
      · exact convert_photo_actual_oversize env file hv hlen
      · exact convert_photo_validate_error env file _ hv
  exact ⟨by rw [hmain], by rw [hmain]; simp, hthird⟩

/-- C3, witness for the amended theorem at a declared-oversize upload
with a supported extension. -/
theorem C3_witness :
    (convert_photo_to_gif envOk fileBigJpg).1 = .errorResponse 413 fileTooLargeMsg
    ∧ Event.decodeInvoked ∉ (convert_photo_to_gif envOk fileBigJpg).2 :=
  ⟨(C3_oversize_413 envOk fileBigJpg "big.jpg" rfl (by decide) (by decide)
      (Or.inl ⟨20 * 1024 * 1024, rfl, by decide⟩)).1,
   (C3_oversize_413 envOk fileBigJpg "big.jpg" rfl (by decide) (by decide)
      (Or.inl ⟨20 * 1024 * 1024, rfl, by decide⟩)).2.1⟩

/-- C4: an upload whose filename has a (case-insensitively) unsupported
extension is rejected with the 400 unsupported-format error, whose
message names the supported set, and background removal is never
invoked; conversely any filename whose lowercased extension is in the
set — e.g. one differing only in letter case — is never rejected by the
extension check. -/
theorem C4_unsupported_extension :
    (∀ (env : Env) (file : UploadFile) (fn : String),
        file.filename = some fn → fn ≠ "" →
        SUPPORTED_FORMATS.contains (strToLower (pathSuffix fn)) = false →
        (convert_photo_to_gif env file).1 = .errorResponse 400 unsupportedFormatMsg
        ∧ Event.removeInvoked ∉ (convert_photo_to_gif env file).2)
    ∧ (∀ (file : UploadFile) (fn : String),
        file.filename = some fn → fn ≠ "" →
        SUPPORTED_FORMATS.contains (strToLower (pathSuffix fn)) = true →
        validate_image_file file ≠ .error ⟨400, unsupportedFormatMsg⟩) := by
  constructor
  · intro env file fn hfn hne hext
    have hval := validate_unsupported file fn hfn hne hext
    have hmain := convert_photo_validate_error env file _ hval
    exact ⟨by rw [hmain], by rw [hmain]; simp⟩
  · intro file fn hfn hne hext hcon
    rcases validate_cases file fn hfn hne hext with hv | hv <;> rw [hv] at hcon
    · exact Except.noConfusion hcon
    · injection hcon with hcon
      exact absurd (congrArg HTTPExc.status_code hcon) (by decide)

/-- C4, witness: `a.txt` is rejected with the unsupported-format message
and removal is never invoked; `photo.JPG` (uppercase extension) is never
rejected by the extension check. -/
theorem C4_witness :
    ((convert_photo_to_gif envOk fileTxt).1 = .errorResponse 400 unsupportedFormatMsg
      ∧ Event.removeInvoked ∉ (convert_photo_to_gif envOk fileTxt).2)
    ∧ validate_image_file fileOk ≠ .error ⟨400, unsupportedFormatMsg⟩ :=
  ⟨C4_unsupported_extension.1 envOk fileTxt "a.txt" rfl (by decide) (by decide),
   C4_unsupported_extension.2 fileOk "photo.JPG" rfl (by decide) (by decide)⟩

/-- C5: every success response carries the filename
`{input_basename}_no_bg.gif`, serves the scratch file of that same name
inside the scratch directory, and uses the GIF media type. -/
theorem C5_response_filename (env : Env) (file : UploadFile) (p rfn mt : String)
    (h : (convert_photo_to_gif env file).1 = .fileResponse p rfn mt) :
    ∃ fn, file.filename = some fn
      ∧ rfn = pathStem fn ++ "_no_bg.gif"
      ∧ p = TEMP_DIR ++ "/" ++ (pathStem fn ++ "_no_bg.gif")
      ∧ mt = "image/gif" := by
  obtain ⟨hv, out, hok, hp, hrfn, hmt⟩ := convert_photo_ok_inv env file p rfn mt h
  obtain ⟨fn, hfn, hne⟩ := validate_ok_filename file () hv
  obtain ⟨hsaved, hmode, hwc, htr⟩ :=
    convert_to_gif_ok_spec env file.content (file.filename.getD "") out hok
  refine ⟨fn, hfn, ?_, ?_, hmt⟩
  · rw [hrfn, hfn]
    rfl
  · rw [hp, hsaved, hfn]
    rfl

/-- C5, witness: the `photo.JPG` conversion responds with file
`photo_no_bg.gif` from the scratch directory and the GIF media type. -/
theorem C5_witness :
    (convert_photo_to_gif envOk fileOk).1 =
      .fileResponse "/tmp/gif_converter/photo_no_bg.gif" "photo_no_bg.gif" "image/gif"
    ∧ ∃ fn, fileOk.filename = some fn
      ∧ "photo_no_bg.gif" = pathStem fn ++ "_no_bg.gif"
      ∧ "/tmp/gif_converter/photo_no_bg.gif" = TEMP_DIR ++ "/" ++ (pathStem fn ++ "_no_bg.gif")
      ∧ "image/gif" = "image/gif" :=
  ⟨rfl, C5_response_filename envOk fileOk _ _ _ rfl⟩

/-- C6, counterexample: the decoder yields an LA-mode bitmap, which has
an alpha channel, yet the code still converts it (its mode is not the
literal RGBA), refuting "converted if and only if the mode lacks an
alpha channel". -/
theorem C6_counterexample :
    (convert_to_gif envLA [1] "a.jpg").1 = .ok outLA
    ∧ outLA.wasConverted = true
    ∧ modeHasAlpha outLA.decodedMode = true := by
  exact ⟨rfl, rfl, rfl⟩

/-- C6, amended: on success the background-removed bytes are decoded and
the bitmap is converted to RGBA exactly when its mode is not already the
literal RGBA — in particular whenever the mode lacks an alpha channel,
but also for alpha-bearing non-RGBA modes — and the bitmap is encoded as
a GIF with palette index 0 transparent, optimization and multi-frame
saving enabled, written to the derived scratch path. -/
theorem C6_convert_and_encode (env : Env) (d : List Nat) (fn : String) (out : ConvertOutput)
    (h : (convert_to_gif env d fn).1 = .ok out) :
    (out.wasConverted = true ↔ out.decodedMode ≠ "RGBA")
    ∧ (modeHasAlpha out.decodedMode = false → out.wasConverted = true)
    ∧ out.savedMode = "RGBA"
    ∧ out.saved.format = "GIF"
    ∧ out.saved.transparency = 0
    ∧ out.saved.optimize = true
    ∧ out.saved.save_all = true
    ∧ out.saved.path = TEMP_DIR ++ "/" ++ (pathStem fn ++ "_no_bg.gif")
    ∧ Event.fsWrite out.saved.path ∈ (convert_to_gif env d fn).2 := by
  obtain ⟨hsaved, hmode, hconv, htr⟩ := convert_to_gif_ok_spec env d fn out h
  refine ⟨?_, ?_, hmode, by rw [hsaved], by rw [hsaved], by rw [hsaved], by rw [hsaved],
    by rw [hsaved], ?_⟩
  · rw [hconv]
    simp
  · intro hfalse
    rw [hconv]
    apply decide_eq_true
    intro heq
    rw [heq] at hfalse
    exact absurd hfalse (by decide)
  · rw [htr]
    simp

/-- C6, witness for the amended theorem at the concrete LA-mode run. -/
theorem C6_witness :
    (outLA.wasConverted = true ↔ outLA.decodedMode ≠ "RGBA")
    ∧ (modeHasAlpha outLA.decodedMode = false → outLA.wasConverted = true)
    ∧ outLA.savedMode = "RGBA"
    ∧ outLA.saved.format = "GIF"
    ∧ outLA.saved.transparency = 0
    ∧ outLA.saved.optimize = true
    ∧ outLA.saved.save_all = true
    ∧ outLA.saved.path = TEMP_DIR ++ "/" ++ (pathStem "a.jpg" ++ "_no_bg.gif")
    ∧ Event.fsWrite outLA.saved.path ∈ (convert_to_gif envLA [1] "a.jpg").2 :=
  C6_convert_and_encode envLA [1] "a.jpg" outLA rfl

/-- C7: an upload passing the filename, extension and size checks whose
content the decoder rejects yields 400 "Invalid image file"; the decode
probe runs before background removal (removal is never invoked) and
independently of it (the outcome is unchanged under any session or
removal function). -/
theorem C7_invalid_image (env : Env) (file : UploadFile) (m : String)
    (hv : validate_image_file file = .ok ())
    (hlen : ¬ file.content.length > MAX_FILE_SIZE)
    (hdec : env.imageOpen file.content = .error m) :
    (convert_photo_to_gif env file).1 = .errorResponse 400 "Invalid image file"
    ∧ Event.removeInvoked ∉ (convert_photo_to_gif env file).2
    ∧ ∀ (sess : Option Unit) (rem : List Nat → Except String (List Nat)),
        (convert_photo_to_gif
            { env with rembg_session := sess, rembgRemove := rem } file).1 =
          .errorResponse 400 "Invalid image file" := by
  have hmain := convert_photo_bad_probe env file m hv hlen hdec
  refine ⟨by rw [hmain], by rw [hmain]; simp, ?_⟩
  intro sess rem
  have hmain2 := convert_photo_bad_probe
    { env with rembg_session := sess, rembgRemove := rem } file m hv hlen hdec
  rw [hmain2]

/-- C7, witness: a validated upload in the always-failing-decoder
environment gets the 400 invalid-image response without invoking
removal. -/
theorem C7_witness :
    (convert_photo_to_gif envBadDecode fileOk).1 = .errorResponse 400 "Invalid image file"
    ∧ Event.removeInvoked ∉ (convert_photo_to_gif envBadDecode fileOk).2 :=
  ⟨(C7_invalid_image envBadDecode fileOk "cannot identify image file" rfl (by decide) rfl).1,
   (C7_invalid_image envBadDecode fileOk "cannot identify image file" rfl (by decide) rfl).2.1⟩

/-- C8: at startup every scratch file with the GIF suffix is deleted and
every other file is kept; a request never deletes any scratch file — in
particular all pre-existing files survive a request, and a successful
request leaves its output file present in the scratch directory. -/
theorem C8_scratch_lifecycle :
    (∀ (files : List String) (f : String), f ∈ files →
        ((strEndsWith f ".gif" = true → f ∉ startup_event files)
          ∧ (strEndsWith f ".gif" = false → f ∈ startup_event files)))
    ∧ (∀ (env : Env) (file : UploadFile) (p : String),
        Event.fsDelete p ∉ (convert_photo_to_gif env file).2)
    ∧ (∀ (env : Env) (file : UploadFile) (scratch : List String) (f : String),
        f ∈ scratch → f ∈ applyEvents scratch (convert_photo_to_gif env file).2)
    ∧ (∀ (env : Env) (file : UploadFile) (p rfn mt : String) (scratch : List String),
        (convert_photo_to_gif env file).1 = .fileResponse p rfn mt →
        p ∈ applyEvents scratch (convert_photo_to_gif env file).2) := by
  have hnodel : ∀ (env : Env) (file : UploadFile) (p : String),
      Event.fsDelete p ∉ (convert_photo_to_gif env file).2 := by
    intro env file p hmem
    rcases convert_photo_trace_cases env file with h | h | ⟨h, hle⟩ <;> rw [h] at hmem
    · simp at hmem
    · simp at hmem
    · rcases List.mem_cons.mp hmem with h1 | h1
      · exact Event.noConfusion h1
      · rcases convert_to_gif_events env file.content (file.filename.getD "")
          (Event.fsDelete p) h1 with h2 | h2 | h2 <;> exact Event.noConfusion h2
  refine ⟨?_, hnodel, ?_, ?_⟩
  · intro files f hf
    constructor
    · intro hgif hmem
      have := (List.mem_filter.mp hmem).2
      simp [hgif] at this
    · intro hgif
      exact List.mem_filter.mpr ⟨hf, by simp [hgif]⟩
  · intro env file scratch f hf
    exact applyEvents_preserves _ scratch f hf (fun p => hnodel env file p)
  · intro env file p rfn mt scratch h
    exact applyEvents_write_mem _ scratch p
      (convert_photo_ok_trace env file p rfn mt h)
      (fun q => hnodel env file q)

/-- C8, witness: concrete startup sweep and request runs. -/
theorem C8_witness :
    ("old.gif" ∉ startup_event ["old.gif", "keep.txt"]
      ∧ "keep.txt" ∈ startup_event ["old.gif", "keep.txt"])
    ∧ Event.fsDelete "/tmp/gif_converter/x.gif" ∉ (convert_photo_to_gif envOk fileOk).2
    ∧ "/tmp/gif_converter/prior.gif" ∈
        applyEvents ["/tmp/gif_converter/prior.gif"] (convert_photo_to_gif envOk fileOk).2
    ∧ "/tmp/gif_converter/photo_no_bg.gif" ∈
        applyEvents [] (convert_photo_to_gif envOk fileOk).2 :=
  ⟨⟨(C8_scratch_lifecycle.1 ["old.gif", "keep.txt"] "old.gif" (by decide)).1 (by decide),
    (C8_scratch_lifecycle.1 ["old.gif", "keep.txt"] "keep.txt" (by decide)).2 (by decide)⟩,
   C8_scratch_lifecycle.2.1 envOk fileOk "/tmp/gif_converter/x.gif",
   C8_scratch_lifecycle.2.2.1 envOk fileOk ["/tmp/gif_converter/prior.gif"]
     "/tmp/gif_converter/prior.gif" (by decide),
   C8_scratch_lifecycle.2.2.2 envOk fileOk "/tmp/gif_converter/photo_no_bg.gif"
     "photo_no_bg.gif" "image/gif" [] rfl⟩

/-- C9: the scratch output path depends only on the input filename's
stem: two successful conversions of uploads with equal stems write the
same path — the first's derived path — and writing that path again into
a scratch directory already holding it changes nothing (it overwrites in
place). -/
theorem C9_same_stem_same_path (env1 env2 : Env) (d1 d2 : List Nat) (f1 f2 : String)
    (o1 o2 : ConvertOutput)
    (hstem : pathStem f1 = pathStem f2)
    (h1 : (convert_to_gif env1 d1 f1).1 = .ok o1)
    (h2 : (convert_to_gif env2 d2 f2).1 = .ok o2) :
    o1.saved.path = o2.saved.path
    ∧ o1.saved.path = TEMP_DIR ++ "/" ++ (pathStem f1 ++ "_no_bg.gif")
    ∧ ∀ s : List String, o1.saved.path ∈ s →
        applyEvent s (.fsWrite o2.saved.path) = s := by
  obtain ⟨hs1, _, _, _⟩ := convert_to_gif_ok_spec env1 d1 f1 o1 h1
  obtain ⟨hs2, _, _, _⟩ := convert_to_gif_ok_spec env2 d2 f2 o2 h2
  have hpath : o1.saved.path = o2.saved.path := by
    rw [hs1, hs2]
    dsimp only
    rw [hstem]
  refine ⟨hpath, by rw [hs1], ?_⟩
  intro s hmem
  show (if o2.saved.path ∈ s then s else o2.saved.path :: s) = s
  rw [if_pos (hpath ▸ hmem)]

/-- C9, witness: `a.jpg` and `a.png` both produce
`/tmp/gif_converter/a_no_bg.gif`, and re-writing it leaves the scratch
directory unchanged. -/
theorem C9_witness :
    outA.saved.path = TEMP_DIR ++ "/" ++ (pathStem "a.jpg" ++ "_no_bg.gif")
    ∧ applyEvent ["/tmp/gif_converter/a_no_bg.gif"] (.fsWrite outA.saved.path) =
        ["/tmp/gif_converter/a_no_bg.gif"] :=
  ⟨(C9_same_stem_same_path envOk envOk [1] [2] "a.jpg" "a.png" outA outA
      (by decide) rfl rfl).2.1,
   (C9_same_stem_same_path envOk envOk [1] [2] "a.jpg" "a.png" outA outA
      (by decide) rfl rfl).2.2 ["/tmp/gif_converter/a_no_bg.gif"] (by decide)⟩

/-- C10: the declared-size pre-filter is skipped when the declared size
is absent or zero (validation then passes for any content, given a good
filename), yet background removal is only ever invoked on content of at
most 10 MiB, because the post-read actual-size check rejects larger
bodies. -/
theorem C10_size_pre_filter_and_guard :
    (∀ (file : UploadFile) (fn : String),
        file.filename = some fn → fn ≠ "" →
        SUPPORTED_FORMATS.contains (strToLower (pathSuffix fn)) = true →
        (file.size = none ∨ file.size = some 0) →
        validate_image_file file = .ok ())
    ∧ (∀ (env : Env) (file : UploadFile),
        Event.removeInvoked ∈ (convert_photo_to_gif env file).2 →
        file.content.length ≤ MAX_FILE_SIZE) := by
  constructor
  · intro file fn hfn hne hext hsz
    apply validate_ok_of file fn hfn hne hext
    intro sz hs
    rcases hsz with h0 | h0 <;> rw [h0] at hs
    · exact Option.noConfusion hs
    · injection hs with h00
      intro hcon
      exact hcon.1 h00.symm
  · intro env file hmem
    rcases convert_photo_trace_cases env file with h | h | ⟨h, hle⟩
    · rw [h] at hmem
      simp at hmem
    · rw [h] at hmem
      simp at hmem
    · exact hle

/-- C10, witness: an upload with no declared size passes validation, and
a run that did invoke removal had content within the limit. -/
theorem C10_witness :
    validate_image_file { filename := some "a.jpg", size := none, content := [1] } = .ok ()
    ∧ fileOk.content.length ≤ MAX_FILE_SIZE :=
  ⟨C10_size_pre_filter_and_guard.1 { filename := some "a.jpg", size := none, content := [1] }
      "a.jpg" rfl (by decide) (by decide) (Or.inl rfl),
   C10_size_pre_filter_and_guard.2 envOk fileOk (by decide)⟩

end Gifmaker
